import Mathlib

/-!
Verification of `scripts/run-ci-e2e-tests.js` (react-native CI end-to-end
orchestration script).

The script is a linear pipeline of external shell commands.  We embed it
as a small deterministic interpreter over an oracle `World` that supplies
the exit code of every shell command (`World.code i` is the exit code of
the i-th `exec` invocation of the run) and the process id of every spawned
background process (`World.pid j` is the pid of the j-th `spawn`).  The
observable behaviour of a run is its event trace (commands executed with
their exit codes, background process spawns, kill commands issued during
cleanup, echoed messages) together with the final process exit status.

The retry helper `try-n-times.js` is required by the script but its source
file is not part of the analysed sources; it is modelled from the spec
(section 4.1 Retrier) as `retryLoop` below.
-/

/-! ## Definitions: the Retrier (spec section 4.1) -/

/-- Modelled from the spec: the retry helper `try-n-times.js` (required at
`scripts/run-ci-e2e-tests.js:31`, source file absent from the analysed
sources).  Spec 4.1: given an operation producing a success/failure signal
(exit code, 0 = success), a maximum attempt count >= 1 and an optional
recovery action, the Retrier invokes the operation; on failure, if attempts
remain, it invokes the recovery action and re-invokes the operation; it
returns the signal of the final attempt.  The state type is abstract so the
same definition drives both the standalone Retrier analysis and the
orchestrator interpreter.  `n` is the maximum attempt count; the `0` case
is outside the contract (count >= 1) and performs a single attempt. -/
def retryLoop {σ : Type} (op : σ → σ × Nat) (recov : σ → σ) : Nat → σ → σ × Nat
  | 0, s => op s
  | n + 1, s =>
    let r := op s
    if r.2 = 0 then r
    else if n = 0 then r
    else retryLoop op recov n (recov r.1)

/-- Events of a standalone Retrier run: `att i c` records an invocation of
the operation (attempt number `i`, exit code `c`); `recov` records an
invocation of the recovery action. -/
inductive REvent : Type
  | att (i : Nat) (code : Nat)
  | recov
deriving DecidableEq

/-- State of a standalone Retrier run: index of the next attempt and the
trace of events so far. -/
structure RSt where
  next : Nat
  trace : List REvent
deriving DecidableEq

/-- The operation handed to the Retrier, driven by an oracle `results`
giving the exit code of each attempt: attempt `i` returns `results i`. -/
def retryOp (results : Nat → Nat) (s : RSt) : RSt × Nat :=
  (⟨s.next + 1, s.trace ++ [REvent.att s.next (results s.next)]⟩, results s.next)

/-- The recovery action handed to the Retrier: records one recovery event. -/
def retryRecov (s : RSt) : RSt :=
  ⟨s.next, s.trace ++ [REvent.recov]⟩

/-- Modelled from the spec: a full standalone run of `tryExecNTimes` with
attempt results given by the oracle `results` and maximum attempt count
`n`, starting from attempt 0 with an empty trace. -/
def tryExecNTimes (results : Nat → Nat) (n : Nat) : RSt × Nat :=
  retryLoop (retryOp results) retryRecov n ⟨0, []⟩

/-- The trace produced by `k` consecutive failed attempts starting at
attempt `i`, each followed by one recovery action. -/
def failTrace (results : Nat → Nat) (i : Nat) : Nat → List REvent
  | 0 => []
  | k + 1 => REvent.att i (results i) :: REvent.recov :: failTrace results (i + 1) k

/-- Does an event record an invocation of the operation? -/
def isAtt : REvent → Bool
  | REvent.att _ _ => true
  | REvent.recov => false

/-- Number of operation invocations recorded in a Retrier trace. -/
def attCount (l : List REvent) : Nat := l.countP isAtt

/-- Number of recovery-action invocations recorded in a Retrier trace. -/
def recCount (l : List REvent) : Nat := l.countP (fun e => !isAtt e)

/-! ## Definitions: orchestrator data model

The orchestrator (`run-ci-e2e-tests.js`) shells out to external commands;
the `World` oracle decides every external outcome.  Per source:
mutable globals `SERVER_PID` and `APPIUM_PID` (lines 35-36) hold the pids
of the spawned packager (bundler/dev-server) and appium (automation
server) processes, `exitCode` (line 37) holds the final status. -/

/-- The two kinds of background processes the script spawns. -/
inductive PKind : Type
  | appium
  | packager
deriving DecidableEq

/-- Observable events of a run.  `execE c k` records a synchronous shell
command `c` exiting with code `k`; `spawnE` records a background process
spawn; `shellE` records a shelljs builtin (`cd`, `cp`, `rm`); `echoE`
records an echoed message; `killE p` records `exec("kill -9 p")` in the
finally block; `killPortE q` records the finally block's
`lsof -i tcp:q | awk ... | xargs kill` sweep of port `q`. -/
inductive Event : Type
  | execE (cmd : String) (code : Nat)
  | spawnE (k : PKind) (pid : Nat)
  | shellE (cmd : String)
  | echoE (msg : String)
  | killE (pid : Nat)
  | killPortE (port : Nat)
deriving DecidableEq

/-- Oracle for one run: `code i` is the exit code of the i-th synchronous
`exec` invocation, `pid j` the OS pid of the j-th spawned process. -/
structure World where
  code : Nat → Nat
  pid : Nat → Nat

/-- Interpreter state: next exec-oracle index, next spawn-oracle index, the
two pid globals (`none` = still `undefined`), and the event trace. -/
structure St where
  execIdx : Nat
  spawnIdx : Nat
  SERVER_PID : Option Nat
  APPIUM_PID : Option Nat
  events : List Event
deriving DecidableEq

/-- Run one synchronous shell command (shelljs `exec`), returning its exit
code and recording the event. -/
def execCmd (w : World) (c : String) (s : St) : St × Nat :=
  ({ s with execIdx := s.execIdx + 1,
            events := s.events ++ [Event.execE c (w.code s.execIdx)] },
    w.code s.execIdx)

/-- shelljs `echo`. -/
def echoOp (m : String) (s : St) : St :=
  { s with events := s.events ++ [Event.echoE m] }

/-- A shelljs builtin with no exit-code check (`cd`, `cp`, `rm`). -/
def shellOp (m : String) (s : St) : St :=
  { s with events := s.events ++ [Event.shellE m] }

/-- Echo a list of messages in order. -/
def echoAll (msgs : List String) (s : St) : St :=
  { s with events := s.events ++ msgs.map Event.echoE }

/-- `spawn` a background process and store its pid in the corresponding
global (source lines 173-174 for appium, 185-188 and 215-219 for the
packager). -/
def spawnProc (w : World) (k : PKind) (s : St) : St :=
  match k with
  | PKind.appium =>
    { s with spawnIdx := s.spawnIdx + 1,
             APPIUM_PID := some (w.pid s.spawnIdx),
             events := s.events ++ [Event.spawnE PKind.appium (w.pid s.spawnIdx)] }
  | PKind.packager =>
    { s with spawnIdx := s.spawnIdx + 1,
             SERVER_PID := some (w.pid s.spawnIdx),
             events := s.events ++ [Event.spawnE PKind.packager (w.pid s.spawnIdx)] }

/-- A recovery action of a retried stage: either the shelljs builtin
`rm(-rf, dir)` (source line 102) or an `exec` of a sleep command. -/
inductive Act : Type
  | rmDir (d : String)
  | sleepCmd (c : String)
deriving DecidableEq

/-- Execute one recovery action. -/
def runAct (w : World) (s : St) : Act → St
  | Act.rmDir d => shellOp ("rm -rf " ++ d) s
  | Act.sleepCmd c => (execCmd w c s).1

/-- Execute a recovery action list in order. -/
def runActs (w : World) (acts : List Act) (s : St) : St :=
  acts.foldl (runAct w) s

/-- One step of the pipeline.  `exec1` runs a command and ignores its exit
code (as the source does for `npm install PACKAGE` at line 120,
`gradlew :app:copyDownloadableDepsToLibs` at line 158, the keystore `rm`
at line 161, the settling sleeps and the curl warm-up); `check` runs a
command and on non-zero exit echoes the messages, sets `exitCode = 1` and
throws; `retryCheck` wraps the command in `tryExecNTimes` with the given
recovery actions and maximum attempt count, treating a non-zero final
signal the same way; `spawn1` starts a background process. -/
inductive Instr : Type
  | echoI (m : String)
  | shellI (m : String)
  | exec1 (c : String)
  | spawn1 (k : PKind)
  | check (c : String) (msgs : List String)
  | retryCheck (c : String) (acts : List Act) (n : Nat) (msgs : List String)

/-- Interpret one instruction; `some 1` signals the thrown fatal failure
(the source always sets `exitCode = 1` before throwing). -/
def runInstr (w : World) (s : St) : Instr → St × Option Nat
  | Instr.echoI m => (echoOp m s, none)
  | Instr.shellI m => (shellOp m s, none)
  | Instr.exec1 c => ((execCmd w c s).1, none)
  | Instr.spawn1 k => (spawnProc w k s, none)
  | Instr.check c msgs =>
    let r := execCmd w c s
    if r.2 = 0 then (r.1, none) else (echoAll msgs r.1, some 1)
  | Instr.retryCheck c acts n msgs =>
    let r := retryLoop (execCmd w c) (runActs w acts) n s
    if r.2 = 0 then (r.1, none) else (echoAll msgs r.1, some 1)

/-- Interpret the pipeline: a thrown failure short-circuits the rest (the
source jumps from the `throw` to the `finally` block). -/
def runProg (w : World) : List Instr → St → St × Option Nat
  | [], s => (s, none)
  | i :: rest, s =>
    match runInstr w s i with
    | (s2, none) => runProg w rest s2
    | (s2, some c) => (s2, some c)

/-- Parsed command-line flags (`argv`): the four target selectors,
`--skip-cli-install`, and the raw `--retries` value (`0` plays the role of
every JavaScript falsy value: absent flag or explicit 0). -/
structure Config where
  android : Bool
  ios : Bool
  tvos : Bool
  js : Bool
  skipCliInstall : Bool
  retries : Nat

/-- Source line 34: `const numberOfRetries = argv.retries || 1;` — a falsy
`--retries` value yields the default 1. -/
def numberOfRetries (retries : Nat) : Nat :=
  if retries = 0 then 1 else retries

/-! Command strings, kept verbatim from the source except that: the
scaffold and artifact-install commands interpolate the absolute packed
artifact path (`path.flatten(ROOT, "react-native-*.tgz")`), abbreviated here
to its basename; the curl warm-up drops the `--write-out` format argument
and the xcodebuild command drops the trailing `exit $PIPESTATUS` fragment,
both of which contain shell brace syntax with no bearing on any claim. -/

def mktempCmd : String := "mktemp -d /tmp/react-native-XXXXXXXX"

def cliInstallCmd : String := "yarn global add react-native-cli"

def installArchivesCmd : String :=
  "./gradlew :ReactAndroid:installArchives -Pjobs=1 -Dorg.gradle.jvmargs=\"-Xmx512m -XX:+HeapDumpOnOutOfMemoryError\""

def flowBinCmd : String := "npm install --save-dev flow-bin"

def npmPackCmd : String := "npm pack"

def initCmd : String := "react-native init EndToEndTest --version react-native-*.tgz --npm"

def installPackageCmd : String := "npm install react-native-*.tgz"

def npmInstallCmd : String := "npm install"

def appiumAddCmd : String :=
  "yarn add --dev appium@1.11.1 mocha@2.4.5 wd@1.11.1 colors@1.0.3 pretty-data2@0.40.1"

def copyDepsCmd : String := "./gradlew :app:copyDownloadableDepsToLibs"

def rmKeystoreCmd : String := "rm android/app/debug.keystore"

def keytoolCmd : String :=
  "keytool -genkey -v -keystore android/app/debug.keystore -storepass android -alias androiddebugkey -keypass android -keyalg RSA -keysize 2048 -validity 10000 -dname \"CN=Android Debug,O=Android,C=US\""

def runAndroidCmd : String := "react-native run-android"

def sleep15Cmd : String := "sleep 15s"

def sleep10Cmd : String := "sleep 10s"

def mochaCmd : String := "node node_modules/.bin/_mocha android-e2e-test.js"

def curlWarmupCmd : String :=
  "curl --silent --output /dev/null localhost:8081/index.bundle?platform=ios&dev=true"

def podInstallCmd : String := "pod install"

def bundleAndroidCmd : String :=
  "react-native bundle --max-workers 1 --platform android --dev true --entry-file index.js --bundle-output android-bundle.js"

def bundleIosCmd : String :=
  "react-native --max-workers 1 bundle --platform ios --dev true --entry-file index.js --bundle-output ios-bundle.js"

def flowCheckCmd : String := "node_modules/.bin/flow check"

/-- Source lines 232-265: the xcodebuild invocation, parameterized exactly
as the source's closure is — the tvOS flag switches the simulator
destination, the SDK and the build scheme. -/
def xcodebuildCmd (tvos : Bool) : String :=
  let destination := if tvos then "platform=tvOS Simulator,name=Apple TV,OS=11.4"
    else "platform=iOS Simulator,name=iPhone 6s,OS=12.2"
  let sdk := if tvos then "appletvsimulator" else "iphonesimulator"
  let scheme := if tvos then "EndToEndTest-tvOS" else "EndToEndTest"
  let t := if tvos then "tvOS" else "iOS"
  "xcodebuild -workspace \"EndToEndTest.xcworkspace\" -destination \"" ++ destination ++
    "\" -scheme \"" ++ scheme ++ "\" -sdk " ++ sdk ++
    " -UseModernBuildSystem=NO test | xcpretty --report junit --output \"~/react-native/reports/junit/" ++
    t ++ "-e2e/results.xml\""

/-- The `describe` helper (source lines 39-41) echoes a highlighted
message. -/
def describeI (m : String) : Instr :=
  Instr.echoI (">>>>> " ++ m)

/-- Source lines 137-206: the Android test branch. -/
def androidBranch (R : Nat) : List Instr :=
  [describeI "Executing Android end-to-end tests",
   Instr.echoI "Installing end-to-end framework",
   Instr.retryCheck appiumAddCmd [] R
     ["Failed to install appium", "Most common reason is npm registry connectivity, try again"],
   Instr.shellI "cp android-e2e-test.js",
   Instr.shellI "cd android",
   Instr.echoI "Downloading Maven deps",
   Instr.exec1 copyDepsCmd,
   Instr.shellI "cd ..",
   Instr.exec1 rmKeystoreCmd,
   Instr.check keytoolCmd ["Key could not be generated"],
   Instr.echoI "Starting appium server",
   Instr.spawn1 PKind.appium,
   Instr.echoI "Building the app",
   Instr.check runAndroidCmd ["could not execute react-native run-android"],
   Instr.echoI "Starting packager server",
   Instr.spawn1 PKind.packager,
   Instr.exec1 sleep15Cmd,
   describeI "Test: Android end-to-end test",
   Instr.retryCheck mochaCmd [Act.sleepCmd sleep10Cmd] R
     ["Failed to run Android end-to-end tests", "Most likely the code is broken"]]

/-- Source lines 208-277: the iOS/tvOS test branch; a single branch taken
when either flag is set, parameterized by the tvOS flag. -/
def appleBranch (tvos : Bool) (R : Nat) : List Instr :=
  let t := if tvos then "tvOS" else "iOS"
  [describeI ("Executing " ++ t ++ " end-to-end tests"),
   Instr.shellI "cd ios",
   Instr.spawn1 PKind.packager,
   Instr.exec1 sleep15Cmd,
   Instr.exec1 curlWarmupCmd,
   Instr.echoI "Starting packager server",
   Instr.echoI "Running pod install",
   Instr.exec1 podInstallCmd,
   describeI ("Test: " ++ t ++ " end-to-end test"),
   Instr.retryCheck (xcodebuildCmd tvos) [Act.sleepCmd sleep10Cmd] R
     ["Failed to run " ++ t ++ " end-to-end tests", "Most likely the code is broken"],
   Instr.shellI "cd .."]

/-- Source lines 279-308: the JavaScript-only test branch. -/
def jsBranch : List Instr :=
  [describeI "Executing JavaScript end-to-end tests",
   describeI "Test: Verify packager can generate an Android bundle",
   Instr.check bundleAndroidCmd ["Could not build Android bundle"],
   describeI "Test: Verify packager can generate an iOS bundle",
   Instr.check bundleIosCmd ["Could not build iOS bundle"],
   describeI "Test: Flow check",
   Instr.check flowCheckCmd ["Flow check failed."]]

/-- The whole try-block of the script (source lines 43-309) as a pipeline,
assembled from the parsed flags. -/
def script (cfg : Config) : List Instr :=
  let R := numberOfRetries cfg.retries
  (if cfg.skipCliInstall then [] else
    [Instr.check cliInstallCmd
      ["Could not install react-native-cli globally.",
       "Run with --skip-cli-install to skip this step"]]) ++
  (if cfg.android then
    [Instr.check installArchivesCmd ["Failed to compile Android binaries"]] else []) ++
  (if cfg.js then
    [Instr.retryCheck flowBinCmd [Act.sleepCmd sleep10Cmd] R
      ["Failed to install Flow", "Most common reason is npm registry connectivity, try again"]]
   else []) ++
  [Instr.check npmPackCmd ["Failed to pack react-native"],
   Instr.shellI "cd TEMP",
   Instr.echoI "Creating EndToEndTest React Native app",
   Instr.retryCheck initCmd [Act.rmDir "EndToEndTest", Act.sleepCmd sleep10Cmd] R
     ["Failed to execute react-native init",
      "Most common reason is npm registry connectivity, try again"],
   Instr.shellI "cp metro.config.js EndToEndTest/.",
   Instr.shellI "cp rn-get-polyfills.js EndToEndTest/.",
   Instr.shellI "cd EndToEndTest",
   Instr.echoI "Installing React Native package",
   Instr.exec1 installPackageCmd,
   Instr.echoI "Installing node_modules",
   Instr.retryCheck npmInstallCmd [Act.sleepCmd sleep10Cmd] R
     ["Failed to execute npm install",
      "Most common reason is npm registry connectivity, try again"]] ++
  (if cfg.android then androidBranch R else []) ++
  (if cfg.ios || cfg.tvos then appleBranch cfg.tvos R else []) ++
  (if cfg.js then jsBranch else [])

/-- JavaScript truthiness of a pid global: `undefined` and `0` are falsy
(source lines 311 and 318 test `if (SERVER_PID)` / `if (APPIUM_PID)`). -/
def truthy : Option Nat → Bool
  | none => false
  | some p => !(p == 0)

/-- The events the finally block (source lines 310-322) appends, as a
function of the two pid globals: if the packager global is truthy, kill it
by pid and then sweep port 8081; if the appium global is truthy, kill it
by pid. -/
def finalizeEvents (sv ap : Option Nat) : List Event :=
  (if truthy sv then
    [Event.echoE ("Killing packager " ++ toString (sv.getD 0)),
     Event.killE (sv.getD 0), Event.killPortE 8081]
   else []) ++
  (if truthy ap then
    [Event.echoE ("Killing appium " ++ toString (ap.getD 0)),
     Event.killE (ap.getD 0)]
   else [])

/-- The finally block (source lines 310-322). -/
def finalize (s : St) : St :=
  let s1 := if truthy s.SERVER_PID then
      { s with execIdx := s.execIdx + 2,
               events := s.events ++
                 [Event.echoE ("Killing packager " ++ toString (s.SERVER_PID.getD 0)),
                  Event.killE (s.SERVER_PID.getD 0), Event.killPortE 8081] }
    else s
  if truthy s1.APPIUM_PID then
    { s1 with execIdx := s1.execIdx + 1,
              events := s1.events ++
                [Event.echoE ("Killing appium " ++ toString (s1.APPIUM_PID.getD 0)),
                 Event.killE (s1.APPIUM_PID.getD 0)] }
  else s1

/-- The state before the try block: no exec has run, no process spawned. -/
def initialSt : St :=
  { execIdx := 0, spawnIdx := 0, SERVER_PID := none, APPIUM_PID := none, events := [] }

/-- The try block preceded by the `mktemp` call of line 33 (the first
`exec` of every run). -/
def bodyOut (w : World) (cfg : Config) : St × Option Nat :=
  runProg w (script cfg) (execCmd w mktempCmd initialSt).1

/-- A complete run: try block, then the finally block exactly once, then
the process exits with `exitCode` — 0 when the body completed (line 309),
or the value set just before the throw (always 1). -/
def runScript (w : World) (cfg : Config) : St × Nat :=
  match bodyOut w cfg with
  | (s, none) => (finalize s, 0)
  | (s, some c) => (finalize s, c)

/-! ## Definitions: trace projections and the run invariant -/

/-- The pids targeted by `kill -9` events, in order. -/
def killTargets (l : List Event) : List Nat :=
  l.filterMap fun e =>
    match e with
    | Event.killE p => some p
    | _ => none

/-- View an optional pid as a zero-or-one element list. -/
def optList : Option Nat → List Nat
  | none => []
  | some p => [p]

/-- The commands of the `exec` events of a trace, in order. -/
def execsOf (l : List Event) : List String :=
  l.filterMap fun e =>
    match e with
    | Event.execE c _ => some c
    | _ => none

/-- The exec command a recovery action may run. -/
def actCmd : Act → Option String
  | Act.rmDir _ => none
  | Act.sleepCmd c => some c

/-- Every command an instruction can ever `exec` (including recovery
commands of its retry loop). -/
def instrCmds : Instr → List String
  | Instr.exec1 c => [c]
  | Instr.check c _ => [c]
  | Instr.retryCheck c acts _ _ => c :: acts.filterMap actCmd
  | _ => []

/-- Every command a pipeline can ever `exec`. -/
def progCmds (l : List Instr) : List String :=
  (l.map instrCmds).flatten

/-- The happy-path commands of one instruction: the commands it execs when
every command succeeds (its main command once, no recovery). -/
def happyOne : Instr → List String
  | Instr.exec1 c => [c]
  | Instr.check c _ => [c]
  | Instr.retryCheck c _ _ _ => [c]
  | _ => []

/-- The commands a pipeline execs when every command succeeds (each stage
runs its command exactly once and no recovery action fires). -/
def happyCmds (l : List Instr) : List String :=
  (l.map happyOne).flatten

/-- An event that is neither a spawn nor a termination call. -/
def NonProc : Event → Prop
  | Event.spawnE _ _ => False
  | Event.killE _ => False
  | Event.killPortE _ => False
  | _ => True

/-- Every exec event of the event list `t` runs a command from `A`. -/
def ExecsFrom (A : List String) (t : List Event) : Prop :=
  ∀ c k, Event.execE c k ∈ t → c ∈ A

/-- Invariant of the try block: each pid global is set exactly when a
process of its kind was spawned (and then holds a nonzero pid whose spawn
is on the trace), and the body itself issues no termination calls. -/
def BodyInv (s : St) : Prop :=
  (∀ p, s.SERVER_PID = some p → p ≠ 0 ∧ Event.spawnE PKind.packager p ∈ s.events) ∧
  (s.SERVER_PID = none → ∀ p, Event.spawnE PKind.packager p ∉ s.events) ∧
  (∀ q, s.APPIUM_PID = some q → q ≠ 0 ∧ Event.spawnE PKind.appium q ∈ s.events) ∧
  (s.APPIUM_PID = none → ∀ q, Event.spawnE PKind.appium q ∉ s.events) ∧
  (∀ p, Event.killE p ∉ s.events) ∧
  (∀ q, Event.killPortE q ∉ s.events)

/-! ## Definitions: concrete runs used as witnesses and counterexamples -/

/-- The all-success world: every command exits 0; spawned pids are
1, 2, 3, ... -/
def wZero : World := ⟨fun _ => 0, fun j => j + 1⟩

/-- A world where exactly the `k`-th exec exits with code `c` and every
other command succeeds; spawned pids are 1, 2, 3, ... -/
def wAt (k : Nat) (c : Nat) : World :=
  ⟨fun i => if i = k then c else 0, fun j => j + 1⟩

/-- An attempt oracle whose first attempt fails with code 1 and whose
later attempts succeed. -/
def r01 : Nat → Nat := fun i => if i = 0 then 1 else 0

/-- No target selected, cli install skipped, default retries. -/
def cfgNone : Config := ⟨false, false, false, false, true, 1⟩

/-- No target selected, cli install skipped, retries = 2. -/
def cfgNone2 : Config := ⟨false, false, false, false, true, 2⟩

/-- Android only, cli install skipped, default retries. -/
def cfgAndroid : Config := ⟨true, false, false, false, true, 1⟩

/-- Android and iOS both selected, cli install skipped, default retries. -/
def cfgAndroidIos : Config := ⟨true, true, false, false, true, 1⟩

/-- The spec section 8 scaffold scenario: android target, setup not
skipped, retries = 2. -/
def cfgScaffold : Config := ⟨true, false, false, false, false, 2⟩

/-- Both apple flags set, cli install skipped, default retries. -/
def cfgIosTvos : Config := ⟨false, true, true, false, true, 1⟩

/-- No target, setup not skipped, default retries. -/
def cfgSetup : Config := ⟨false, false, false, false, false, 1⟩

/-! ## Theorems: the Retrier -/

theorem retryLoop_succ {σ : Type} (op : σ → σ × Nat) (recov : σ → σ) (n : Nat) (s : σ) :
    retryLoop op recov (n + 1) s =
      if (op s).2 = 0 then op s
      else if n = 0 then op s
      else retryLoop op recov n (recov (op s).1) := by
  simp only [retryLoop]

theorem failTrace_attCount (results : Nat → Nat) :
    ∀ k i, attCount (failTrace results i k) = k := by
  intro k
  induction k with
  | zero => intro i; rfl
  | succ k ih =>
    intro i
    simp only [failTrace, attCount, isAtt, List.countP_cons] at *
    simpa [attCount] using ih (i + 1)

theorem failTrace_recCount (results : Nat → Nat) :
    ∀ k i, recCount (failTrace results i k) = k := by
  intro k
  induction k with
  | zero => intro i; rfl
  | succ k ih =>
    intro i
    simp only [failTrace, recCount, isAtt, List.countP_cons] at *
    simpa [recCount] using ih (i + 1)

/-- All-failure run of the Retrier: with `m + 1` attempts available and
every consulted attempt failing, the Retrier performs all `m + 1` attempts
with a recovery between consecutive attempts, and returns the failure
signal of the last attempt. -/
theorem retryLoop_all_fail (results : Nat → Nat) :
    ∀ m i tr, (∀ k, k < m + 1 → results (i + k) ≠ 0) →
    retryLoop (retryOp results) retryRecov (m + 1) ⟨i, tr⟩ =
      (⟨i + m + 1, tr ++ failTrace results i m ++ [REvent.att (i + m) (results (i + m))]⟩,
        results (i + m)) := by
  intro m
  induction m with
  | zero =>
    intro i tr h
    have h0 : results i ≠ 0 := by simpa using h 0 (by omega)
    rw [retryLoop_succ]
    simp [retryOp, failTrace, h0]
  | succ m ih =>
    intro i tr h
    have h0 : results i ≠ 0 := by simpa using h 0 (by omega)
    have hrec := ih (i + 1) (tr ++ [REvent.att i (results i), REvent.recov])
      (fun k hk => by
        have := h (k + 1) (by omega)
        simpa [Nat.add_assoc, Nat.add_comm, Nat.add_left_comm] using this)
    have e1 : i + 1 + m = i + m + 1 := by omega
    rw [e1] at hrec
    rw [retryLoop_succ]
    simp only [retryOp, h0, if_neg, Nat.succ_ne_zero, if_false]
    rw [show (retryRecov ⟨i + 1, tr ++ [REvent.att i (results i)]⟩ : RSt) =
        ⟨i + 1, tr ++ [REvent.att i (results i), REvent.recov]⟩ from by
      simp [retryRecov]]
    rw [hrec]
    simp [failTrace, List.append_assoc]
    exact ⟨rfl, rfl⟩

/-- First-success run of the Retrier: with `m + 1` attempts available, if
attempt `i + d` succeeds (for some `d < m + 1`) and all earlier consulted
attempts fail, the Retrier stops right after that attempt, returning the
success signal; it performed `d + 1` attempts and `d` recoveries. -/
theorem retryLoop_first_success (results : Nat → Nat) :
    ∀ m i tr d, d < m + 1 → results (i + d) = 0 →
    (∀ k, k < d → results (i + k) ≠ 0) →
    retryLoop (retryOp results) retryRecov (m + 1) ⟨i, tr⟩ =
      (⟨i + d + 1, tr ++ failTrace results i d ++ [REvent.att (i + d) 0]⟩, 0) := by
  intro m
  induction m with
  | zero =>
    intro i tr d hd h0 hfail
    interval_cases d
    simp only [Nat.add_zero] at h0
    rw [retryLoop_succ]
    simp [retryOp, failTrace, h0]
  | succ m ih =>
    intro i tr d hd h0 hfail
    cases d with
    | zero =>
      simp only [Nat.add_zero] at h0
      rw [retryLoop_succ]
      simp [retryOp, failTrace, h0]
    | succ d =>
      have hne : results i ≠ 0 := by simpa using hfail 0 (by omega)
      have hrec := ih (i + 1) (tr ++ [REvent.att i (results i), REvent.recov]) d
        (by omega)
        (by
          have e : i + 1 + d = i + (d + 1) := by omega
          rw [e]; exact h0)
        (fun k hk => by
          have := hfail (k + 1) (by omega)
          simpa [Nat.add_assoc, Nat.add_comm, Nat.add_left_comm] using this)
      have e1 : i + 1 + d = i + d + 1 := by omega
      rw [e1] at hrec
      rw [retryLoop_succ]
      simp only [retryOp, hne, if_neg, Nat.succ_ne_zero, if_false]
      rw [show (retryRecov ⟨i + 1, tr ++ [REvent.att i (results i)]⟩ : RSt) =
          ⟨i + 1, tr ++ [REvent.att i (results i), REvent.recov]⟩ from by
        simp [retryRecov]]
      rw [hrec]
      simp [failTrace, List.append_assoc]
      exact rfl

/-- Counting bound for any Retrier run with `m + 1` attempts available:
the trace grows by a suffix containing between 1 and `m + 1` operation
invocations, and exactly one fewer recovery invocations (so a recovery
happens only between two attempts, never after the final one). -/
theorem retryLoop_counts (results : Nat → Nat) :
    ∀ m i tr, ∃ t,
      (retryLoop (retryOp results) retryRecov (m + 1) ⟨i, tr⟩).1.trace = tr ++ t ∧
      1 ≤ attCount t ∧ attCount t ≤ m + 1 ∧ recCount t = attCount t - 1 := by
  intro m
  induction m with
  | zero =>
    intro i tr
    refine ⟨[REvent.att i (results i)], ?_, ?_, ?_, ?_⟩
    · rw [retryLoop_succ]
      by_cases h : results i = 0 <;> simp [retryOp, h]
    · simp [attCount, isAtt]
    · simp [attCount, isAtt]
    · simp [attCount, recCount, isAtt]
  | succ m ih =>
    intro i tr
    by_cases h : results i = 0
    · refine ⟨[REvent.att i (results i)], ?_, ?_, ?_, ?_⟩
      · rw [retryLoop_succ]
        simp [retryOp, h]
      · simp [attCount, isAtt]
      · simp [attCount, isAtt]
      · simp [attCount, recCount, isAtt]
    · obtain ⟨t, ht, h1, h2, h3⟩ := ih (i + 1) (tr ++ [REvent.att i (results i), REvent.recov])
      refine ⟨REvent.att i (results i) :: REvent.recov :: t, ?_, ?_, ?_, ?_⟩
      · rw [retryLoop_succ]
        simp only [retryOp, h, if_neg, Nat.succ_ne_zero, if_false]
        rw [show (retryRecov ⟨i + 1, tr ++ [REvent.att i (results i)]⟩ : RSt) =
            ⟨i + 1, tr ++ [REvent.att i (results i), REvent.recov]⟩ from by
          simp [retryRecov]]
        simpa [List.append_assoc] using ht
      · simp [attCount, isAtt, List.countP_cons]
      · simp only [attCount, isAtt, List.countP_cons] at h2 ⊢
        simp_all
      · simp only [attCount, recCount, isAtt, List.countP_cons] at h1 h3 ⊢
        simp_all

/-! ## Theorems: interpreter infrastructure -/

theorem execsOf_append (a b : List Event) :
    execsOf (a ++ b) = execsOf a ++ execsOf b := by
  simp [execsOf, List.filterMap_append]

theorem killTargets_append (a b : List Event) :
    killTargets (a ++ b) = killTargets a ++ killTargets b := by
  simp [killTargets, List.filterMap_append]

theorem execsOf_map_echo (msgs : List String) :
    execsOf (msgs.map Event.echoE) = [] := by
  induction msgs with
  | nil => rfl
  | cons m rest ih => simp [execsOf] at ih ⊢

theorem bodyInv_of_extend {s s2 : St} (h : BodyInv s)
    (hS : s2.SERVER_PID = s.SERVER_PID) (hA : s2.APPIUM_PID = s.APPIUM_PID)
    (t : List Event) (he : s2.events = s.events ++ t)
    (hb : ∀ e ∈ t, NonProc e) : BodyInv s2 := by
  obtain ⟨h1, h2, h3, h4, h5, h6⟩ := h
  refine ⟨?_, ?_, ?_, ?_, ?_, ?_⟩
  · intro p hp
    rw [hS] at hp
    obtain ⟨hne, hmem⟩ := h1 p hp
    exact ⟨hne, by rw [he]; exact List.mem_append_left _ hmem⟩
  · intro hn p
    rw [hS] at hn
    rw [he]
    intro hmem
    rcases List.mem_append.mp hmem with hmem | hmem
    · exact h2 hn p hmem
    · exact hb _ hmem
  · intro q hq
    rw [hA] at hq
    obtain ⟨hne, hmem⟩ := h3 q hq
    exact ⟨hne, by rw [he]; exact List.mem_append_left _ hmem⟩
  · intro hn q
    rw [hA] at hn
    rw [he]
    intro hmem
    rcases List.mem_append.mp hmem with hmem | hmem
    · exact h4 hn q hmem
    · exact hb _ hmem
  · intro p
    rw [he]
    intro hmem
    rcases List.mem_append.mp hmem with hmem | hmem
    · exact h5 p hmem
    · exact hb _ hmem
  · intro q
    rw [he]
    intro hmem
    rcases List.mem_append.mp hmem with hmem | hmem
    · exact h6 q hmem
    · exact hb _ hmem

theorem bodyInv_execCmd (w : World) (c : String) (s : St) (h : BodyInv s) :
    BodyInv (execCmd w c s).1 :=
  bodyInv_of_extend h rfl rfl _ rfl (by
    intro e he
    simp at he
    subst he
    trivial)

theorem bodyInv_echoOp (m : String) (s : St) (h : BodyInv s) :
    BodyInv (echoOp m s) :=
  bodyInv_of_extend h rfl rfl _ rfl (by
    intro e he
    simp at he
    subst he
    trivial)

theorem bodyInv_shellOp (m : String) (s : St) (h : BodyInv s) :
    BodyInv (shellOp m s) :=
  bodyInv_of_extend h rfl rfl _ rfl (by
    intro e he
    simp at he
    subst he
    trivial)

theorem bodyInv_echoAll (msgs : List String) (s : St) (h : BodyInv s) :
    BodyInv (echoAll msgs s) :=
  bodyInv_of_extend h rfl rfl _ rfl (by
    intro e he
    simp [List.mem_map] at he
    obtain ⟨m, _, rfl⟩ := he
    trivial)

theorem bodyInv_spawnProc (w : World) (k : PKind) (s : St)
    (hp : w.pid s.spawnIdx ≠ 0) (h : BodyInv s) : BodyInv (spawnProc w k s) := by
  obtain ⟨h1, h2, h3, h4, h5, h6⟩ := h
  cases k with
  | appium =>
    refine ⟨?_, ?_, ?_, ?_, ?_, ?_⟩
    · intro p hp2
      simp only [spawnProc] at hp2 ⊢
      obtain ⟨hne, hmem⟩ := h1 p hp2
      exact ⟨hne, List.mem_append_left _ hmem⟩
    · intro hn p
      simp only [spawnProc] at hn ⊢
      intro hmem
      rcases List.mem_append.mp hmem with hmem | hmem
      · exact h2 hn p hmem
      · simp at hmem
    · intro q hq
      simp only [spawnProc] at hq ⊢
      simp at hq
      subst hq
      exact ⟨hp, List.mem_append_right _ (by simp)⟩
    · intro hn q
      simp only [spawnProc] at hn
      simp at hn
    · intro p
      simp only [spawnProc]
      intro hmem
      rcases List.mem_append.mp hmem with hmem | hmem
      · exact h5 p hmem
      · simp at hmem
    · intro q
      simp only [spawnProc]
      intro hmem
      rcases List.mem_append.mp hmem with hmem | hmem
      · exact h6 q hmem
      · simp at hmem
  | packager =>
    refine ⟨?_, ?_, ?_, ?_, ?_, ?_⟩
    · intro p hp2
      simp only [spawnProc] at hp2 ⊢
      simp at hp2
      subst hp2
      exact ⟨hp, List.mem_append_right _ (by simp)⟩
    · intro hn p
      simp only [spawnProc] at hn
      simp at hn
    · intro q hq
      simp only [spawnProc] at hq ⊢
      obtain ⟨hne, hmem⟩ := h3 q hq
      exact ⟨hne, List.mem_append_left _ hmem⟩
    · intro hn q
      simp only [spawnProc] at hn ⊢
      intro hmem
      rcases List.mem_append.mp hmem with hmem | hmem
      · exact h4 hn q hmem
      · simp at hmem
    · intro p
      simp only [spawnProc]
      intro hmem
      rcases List.mem_append.mp hmem with hmem | hmem
      · exact h5 p hmem
      · simp at hmem
    · intro q
      simp only [spawnProc]
      intro hmem
      rcases List.mem_append.mp hmem with hmem | hmem
      · exact h6 q hmem
      · simp at hmem

theorem bodyInv_runAct (w : World) (s : St) (a : Act) (h : BodyInv s) :
    BodyInv (runAct w s a) := by
  cases a with
  | rmDir d => exact bodyInv_shellOp _ s h
  | sleepCmd c => exact bodyInv_execCmd w c s h

theorem bodyInv_runActs (w : World) (acts : List Act) :
    ∀ s, BodyInv s → BodyInv (runActs w acts s) := by
  induction acts with
  | nil => intro s h; exact h
  | cons a rest ih =>
    intro s h
    have : runActs w (a :: rest) s = runActs w rest (runAct w s a) := rfl
    rw [this]
    exact ih _ (bodyInv_runAct w s a h)

theorem bodyInv_retryLoop (w : World) (c : String) (acts : List Act) :
    ∀ n s, BodyInv s → BodyInv (retryLoop (execCmd w c) (runActs w acts) n s).1 := by
  intro n
  induction n with
  | zero => intro s h; exact bodyInv_execCmd w c s h
  | succ n ih =>
    intro s h
    rw [retryLoop_succ]
    by_cases h0 : (execCmd w c s).2 = 0
    · simpa [h0] using bodyInv_execCmd w c s h
    · by_cases hn : n = 0
      · simpa [h0, hn] using bodyInv_execCmd w c s h
      · simpa [h0, hn] using ih (runActs w acts (execCmd w c s).1)
          (bodyInv_runActs w acts _ (bodyInv_execCmd w c s h))

theorem bodyInv_runInstr (w : World) (hpid : ∀ j, w.pid j ≠ 0) (s : St) (ins : Instr)
    (h : BodyInv s) : BodyInv (runInstr w s ins).1 := by
  cases ins with
  | echoI m => exact bodyInv_echoOp m s h
  | shellI m => exact bodyInv_shellOp m s h
  | exec1 c => exact bodyInv_execCmd w c s h
  | spawn1 k => exact bodyInv_spawnProc w k s (hpid _) h
  | check c msgs =>
    simp only [runInstr]
    by_cases h0 : (execCmd w c s).2 = 0
    · simpa [h0] using bodyInv_execCmd w c s h
    · simpa [h0] using bodyInv_echoAll msgs _ (bodyInv_execCmd w c s h)
  | retryCheck c acts n msgs =>
    simp only [runInstr]
    by_cases h0 : (retryLoop (execCmd w c) (runActs w acts) n s).2 = 0
    · simpa [h0] using bodyInv_retryLoop w c acts n s h
    · simpa [h0] using bodyInv_echoAll msgs _ (bodyInv_retryLoop w c acts n s h)

theorem bodyInv_runProg (w : World) (hpid : ∀ j, w.pid j ≠ 0) :
    ∀ l s, BodyInv s → BodyInv (runProg w l s).1 := by
  intro l
  induction l with
  | nil => intro s h; exact h
  | cons ins rest ih =>
    intro s h
    have h2 := bodyInv_runInstr w hpid s ins h
    rcases hri : runInstr w s ins with ⟨s2, r⟩
    rw [hri] at h2
    cases r with
    | none => simpa [runProg, hri] using ih s2 h2
    | some c => simpa [runProg, hri] using h2

theorem bodyInv_initial : BodyInv initialSt := by
  refine ⟨?_, ?_, ?_, ?_, ?_, ?_⟩ <;> simp [initialSt]

theorem bodyInv_bodyOut (w : World) (cfg : Config) (hpid : ∀ j, w.pid j ≠ 0) :
    BodyInv (bodyOut w cfg).1 :=
  bodyInv_runProg w hpid _ _ (bodyInv_execCmd w mktempCmd initialSt bodyInv_initial)

theorem runInstr_code (w : World) (s : St) (ins : Instr) :
    (runInstr w s ins).2 = none ∨ (runInstr w s ins).2 = some 1 := by
  cases ins with
  | echoI m => exact Or.inl rfl
  | shellI m => exact Or.inl rfl
  | exec1 c => exact Or.inl rfl
  | spawn1 k => exact Or.inl rfl
  | check c msgs =>
    simp only [runInstr]
    split <;> simp
  | retryCheck c acts n msgs =>
    simp only [runInstr]
    split <;> simp

theorem runProg_code (w : World) :
    ∀ l s, (runProg w l s).2 = none ∨ (runProg w l s).2 = some 1 := by
  intro l
  induction l with
  | nil => intro s; exact Or.inl rfl
  | cons ins rest ih =>
    intro s
    have hc := runInstr_code w s ins
    rcases hri : runInstr w s ins with ⟨s2, r⟩
    rw [hri] at hc
    cases r with
    | none => simpa [runProg, hri] using ih s2
    | some c =>
      simp only [runProg, hri]
      simpa using hc

theorem retryLoop_op_zero {σ : Type} (op : σ → σ × Nat) (recov : σ → σ)
    (hop : ∀ s, (op s).2 = 0) : ∀ n s, retryLoop op recov n s = op s := by
  intro n s
  cases n with
  | zero => rfl
  | succ n => rw [retryLoop_succ]; simp [hop s]

theorem runProg_happy (w : World) (hz : ∀ i, w.code i = 0) :
    ∀ l s, (runProg w l s).2 = none ∧
      execsOf (runProg w l s).1.events = execsOf s.events ++ happyCmds l := by
  intro l
  induction l with
  | nil => intro s; simp [runProg, happyCmds]
  | cons ins rest ih =>
    intro s
    have hstep : (runInstr w s ins).2 = none ∧
        execsOf (runInstr w s ins).1.events = execsOf s.events ++ happyOne ins := by
      cases ins with
      | echoI m => simp [runInstr, echoOp, happyOne, execsOf_append, execsOf]
      | shellI m => simp [runInstr, shellOp, happyOne, execsOf_append, execsOf]
      | exec1 c => simp [runInstr, execCmd, happyOne, execsOf_append, execsOf]
      | spawn1 k =>
        cases k <;> simp [runInstr, spawnProc, happyOne, execsOf_append, execsOf]
      | check c msgs =>
        simp [runInstr, execCmd, hz s.execIdx, happyOne, execsOf_append, execsOf]
      | retryCheck c acts n msgs =>
        rw [runInstr]
        rw [retryLoop_op_zero (execCmd w c) (runActs w acts) (fun s2 => hz s2.execIdx) n s]
        simp [execCmd, hz s.execIdx, happyOne, execsOf_append, execsOf]
    rcases hri : runInstr w s ins with ⟨s2, r⟩
    rw [hri] at hstep
    cases r with
    | none =>
      obtain ⟨hnone2, hex⟩ := hstep
      obtain ⟨ih1, ih2⟩ := ih s2
      refine ⟨by simpa [runProg, hri] using ih1, ?_⟩
      have : (runProg w (ins :: rest) s) = runProg w rest s2 := by
        simp [runProg, hri]
      rw [this, ih2, hex]
      simp [happyCmds, List.append_assoc]
    | some c => simp at hstep

theorem execsFrom_mono {A B : List String} (hAB : ∀ x ∈ A, x ∈ B) {t : List Event}
    (h : ExecsFrom A t) : ExecsFrom B t :=
  fun c k hm => hAB c (h c k hm)

theorem execsFrom_append {A : List String} {t1 t2 : List Event}
    (h1 : ExecsFrom A t1) (h2 : ExecsFrom A t2) : ExecsFrom A (t1 ++ t2) := by
  intro c k hm
  rcases List.mem_append.mp hm with hm | hm
  exacts [h1 c k hm, h2 c k hm]

theorem execsFrom_echo {A : List String} (msgs : List String) :
    ExecsFrom A (msgs.map Event.echoE) := by
  intro c k hm
  simp [List.mem_map] at hm

theorem runActs_execs (w : World) (acts : List Act) :
    ∀ s, ∃ t, (runActs w acts s).events = s.events ++ t ∧
      ExecsFrom (acts.filterMap actCmd) t := by
  induction acts with
  | nil =>
    intro s
    exact ⟨[], by simp [runActs], by intro c k h; simp at h⟩
  | cons a rest ih =>
    intro s
    obtain ⟨t, ht, hf⟩ := ih (runAct w s a)
    have hstep : runActs w (a :: rest) s = runActs w rest (runAct w s a) := rfl
    cases a with
    | rmDir d =>
      refine ⟨Event.shellE ("rm -rf " ++ d) :: t, ?_, ?_⟩
      · rw [hstep, ht]
        simp [runAct, shellOp]
      · intro c k hm
        rcases List.mem_cons.mp hm with hm | hm
        · cases hm
        · exact hf c k hm
    | sleepCmd cs =>
      refine ⟨Event.execE cs (w.code s.execIdx) :: t, ?_, ?_⟩
      · rw [hstep, ht]
        simp [runAct, execCmd]
      · intro c k hm
        rcases List.mem_cons.mp hm with hm | hm
        · simp at hm
          simp [actCmd, hm.1]
        · simp only [List.filterMap_cons, actCmd]
          exact List.mem_cons_of_mem _ (hf c k hm)

theorem retryLoop_execs (w : World) (c : String) (acts : List Act) :
    ∀ n s, ∃ t, (retryLoop (execCmd w c) (runActs w acts) n s).1.events = s.events ++ t ∧
      ExecsFrom (c :: acts.filterMap actCmd) t := by
  intro n
  induction n with
  | zero =>
    intro s
    refine ⟨[Event.execE c (w.code s.execIdx)], rfl, ?_⟩
    intro c2 k hm
    simp at hm
    simp [hm.1]
  | succ n ih =>
    intro s
    rw [retryLoop_succ]
    by_cases h0 : (execCmd w c s).2 = 0
    · have h0x : w.code s.execIdx = 0 := h0
      refine ⟨[Event.execE c (w.code s.execIdx)], by simp [h0x, execCmd], ?_⟩
      intro c2 k hm
      simp at hm
      simp [hm.1]
    · have h0x : ¬ w.code s.execIdx = 0 := h0
      by_cases hn : n = 0
      · refine ⟨[Event.execE c (w.code s.execIdx)], by simp [h0x, hn, execCmd], ?_⟩
        intro c2 k hm
        simp at hm
        simp [hm.1]
      · simp only [h0x, hn, if_neg, if_false]
        obtain ⟨t1, ht1, hf1⟩ := runActs_execs w acts (execCmd w c s).1
        obtain ⟨t2, ht2, hf2⟩ := ih (runActs w acts (execCmd w c s).1)
        refine ⟨Event.execE c (w.code s.execIdx) :: (t1 ++ t2), ?_, ?_⟩
        · rw [if_neg h0, ht2, ht1]
          simp [execCmd, List.append_assoc]
        · intro c2 k hm
          rcases List.mem_cons.mp hm with hm | hm
          · cases hm
            simp
          · rcases List.mem_append.mp hm with hm | hm
            · exact List.mem_cons_of_mem _ (hf1 c2 k hm)
            · exact hf2 c2 k hm

theorem runInstr_execs (w : World) (s : St) (ins : Instr) :
    ∃ t, (runInstr w s ins).1.events = s.events ++ t ∧
      ExecsFrom (instrCmds ins) t := by
  cases ins with
  | echoI m =>
    exact ⟨[Event.echoE m], rfl, by intro c k hm; simp at hm⟩
  | shellI m =>
    exact ⟨[Event.shellE m], rfl, by intro c k hm; simp at hm⟩
  | exec1 c =>
    refine ⟨[Event.execE c (w.code s.execIdx)], rfl, ?_⟩
    intro c2 k hm
    simp at hm
    simp [instrCmds, hm.1]
  | spawn1 k =>
    cases k <;>
      exact ⟨[Event.spawnE _ (w.pid s.spawnIdx)], rfl, by intro c2 k2 hm; simp at hm⟩
  | check c msgs =>
    simp only [runInstr]
    by_cases h0 : (execCmd w c s).2 = 0
    · have h0x : w.code s.execIdx = 0 := h0
      refine ⟨[Event.execE c (w.code s.execIdx)], by simp [h0x, execCmd], ?_⟩
      intro c2 k hm
      simp at hm
      simp [instrCmds, hm.1]
    · have h0x : ¬ w.code s.execIdx = 0 := h0
      refine ⟨Event.execE c (w.code s.execIdx) :: msgs.map Event.echoE,
        by simp [h0x, echoAll, execCmd], ?_⟩
      intro c2 k hm
      rcases List.mem_cons.mp hm with hm | hm
      · cases hm
        simp [instrCmds]
      · simp [List.mem_map] at hm
  | retryCheck c acts n msgs =>
    simp only [runInstr]
    obtain ⟨t, ht, hf⟩ := retryLoop_execs w c acts n s
    by_cases h0 : (retryLoop (execCmd w c) (runActs w acts) n s).2 = 0
    · exact ⟨t, by simp [h0, ht], by simpa [instrCmds] using hf⟩
    · refine ⟨t ++ msgs.map Event.echoE, by simp [h0, echoAll, ht], ?_⟩
      have : ExecsFrom (instrCmds (Instr.retryCheck c acts n msgs)) t := by
        simpa [instrCmds] using hf
      exact execsFrom_append this (execsFrom_echo msgs)

theorem runProg_execs (w : World) :
    ∀ l s, ∃ t, (runProg w l s).1.events = s.events ++ t ∧
      ExecsFrom (progCmds l) t := by
  intro l
  induction l with
  | nil =>
    intro s
    exact ⟨[], by simp [runProg], by intro c k h; simp at h⟩
  | cons ins rest ih =>
    intro s
    obtain ⟨t1, ht1, hf1⟩ := runInstr_execs w s ins
    rcases hri : runInstr w s ins with ⟨s2, r⟩
    rw [hri] at ht1
    have hsub1 : ∀ x ∈ instrCmds ins, x ∈ progCmds (ins :: rest) := by
      intro x hx
      simp [progCmds]
      exact Or.inl hx
    cases r with
    | none =>
      obtain ⟨t2, ht2, hf2⟩ := ih s2
      refine ⟨t1 ++ t2, ?_, ?_⟩
      · have : runProg w (ins :: rest) s = runProg w rest s2 := by simp [runProg, hri]
        rw [this, ht2, ht1, List.append_assoc]
      · refine execsFrom_append (execsFrom_mono hsub1 hf1) (execsFrom_mono ?_ hf2)
        intro x hx
        simp [progCmds] at hx ⊢
        exact Or.inr hx
    | some c =>
      refine ⟨t1, ?_, execsFrom_mono hsub1 hf1⟩
      have : runProg w (ins :: rest) s = (s2, some c) := by simp [runProg, hri]
      rw [this]
      exact ht1

/-! ## Theorems: finalization -/

theorem finalize_events (s : St) :
    (finalize s).events = s.events ++ finalizeEvents s.SERVER_PID s.APPIUM_PID := by
  unfold finalize finalizeEvents
  by_cases h1 : truthy s.SERVER_PID <;> by_cases h2 : truthy s.APPIUM_PID <;>
    simp [h1, h2, List.append_assoc]

theorem runScript_fst (w : World) (cfg : Config) :
    (runScript w cfg).1 = finalize (bodyOut w cfg).1 := by
  rcases h : bodyOut w cfg with ⟨s, r⟩
  cases r <;> simp [runScript, h]

theorem runScript_code (w : World) (cfg : Config) :
    ((runScript w cfg).2 = 0 ∨ (runScript w cfg).2 = 1) ∧
    ((runScript w cfg).2 = 1 ↔ (bodyOut w cfg).2 = some 1) ∧
    ((runScript w cfg).2 = 0 ↔ (bodyOut w cfg).2 = none) := by
  have hc : (bodyOut w cfg).2 = none ∨ (bodyOut w cfg).2 = some 1 :=
    runProg_code w (script cfg) (execCmd w mktempCmd initialSt).1
  rcases h : bodyOut w cfg with ⟨s, r⟩
  rw [h] at hc
  cases r with
  | none => simp [runScript, h]
  | some c =>
    have hc1 : c = 1 := by simpa using hc
    subst hc1
    simp [runScript, h]

theorem truthy_some_ne {p : Nat} (hp : p ≠ 0) : truthy (some p) = true := by
  simp [truthy, hp]

theorem finalizeEvents_none_none : finalizeEvents none none = [] := rfl

theorem finalizeEvents_some (p : Nat) (hp : p ≠ 0) (ap : Option Nat) :
    finalizeEvents (some p) ap =
      Event.echoE ("Killing packager " ++ toString p) :: Event.killE p ::
        Event.killPortE 8081 :: finalizeEvents none ap := by
  unfold finalizeEvents
  simp [truthy_some_ne hp, truthy, hp]

theorem killTargets_finalizeEvents (sv ap : Option Nat)
    (hs : ∀ p, sv = some p → p ≠ 0) (ha : ∀ q, ap = some q → q ≠ 0) :
    killTargets (finalizeEvents sv ap) = optList sv ++ optList ap := by
  cases sv with
  | none =>
    cases ap with
    | none => rfl
    | some q =>
      have hq := ha q rfl
      simp [finalizeEvents, truthy, truthy_some_ne hq, killTargets, optList, hq]
  | some p =>
    have hp := hs p rfl
    cases ap with
    | none =>
      simp [finalizeEvents, truthy, truthy_some_ne hp, killTargets, optList, hp]
    | some q =>
      have hq := ha q rfl
      simp [finalizeEvents, truthy_some_ne hp, truthy_some_ne hq, killTargets, optList, hp, hq]

theorem killPort_finalizeEvents (sv ap : Option Nat) (hs : ∀ p, sv = some p → p ≠ 0) :
    (Event.killPortE 8081 ∈ finalizeEvents sv ap ↔ sv.isSome) := by
  cases sv with
  | none =>
    cases ap with
    | none => simp [finalizeEvents, truthy]
    | some q =>
      by_cases hq : q = 0 <;> simp [finalizeEvents, truthy, hq]
  | some p =>
    have hp := hs p rfl
    simp [finalizeEvents_some p hp ap]

theorem killE_finalizeEvents_ap (sv : Option Nat) (q : Nat) (hq : q ≠ 0) :
    Event.killE q ∈ finalizeEvents sv (some q) := by
  unfold finalizeEvents
  simp [truthy_some_ne hq]

theorem execsOf_finalizeEvents (sv ap : Option Nat) :
    execsOf (finalizeEvents sv ap) = [] := by
  unfold finalizeEvents
  split_ifs <;> simp [execsOf]

theorem execE_not_finalizeEvents (sv ap : Option Nat) (c : String) (k : Nat) :
    Event.execE c k ∉ finalizeEvents sv ap := by
  unfold finalizeEvents
  split_ifs <;> simp

/-! ## Theorems: command coverage of the assembled pipeline -/

set_option maxRecDepth 4000 in
theorem xcb_false_notin (cfg : Config) (ht : cfg.tvos = true) :
    xcodebuildCmd false ∉ progCmds (script cfg) := by
  rcases cfg with ⟨a, i, t, j, sk, r⟩
  simp only at ht
  subst ht
  cases a <;> cases i <;> cases j <;> cases sk <;>
    simp [script, progCmds, androidBranch, appleBranch, jsBranch, describeI,
      instrCmds, actCmd] <;>
    decide

set_option maxRecDepth 4000 in
theorem xcb_true_count (cfg : Config) (hi : cfg.ios = true) (ht : cfg.tvos = true) :
    (happyCmds (script cfg)).count (xcodebuildCmd true) = 1 := by
  rcases cfg with ⟨a, i, t, j, sk, r⟩
  simp only at hi ht
  subst hi
  subst ht
  cases a <;> cases j <;> cases sk <;>
    simp [script, happyCmds, androidBranch, appleBranch, jsBranch, describeI,
      happyOne] <;>
    decide

/-! ## Theorems: the claims -/

/-- C1: for every maximum attempt count N >= 1, every operation outcome
oracle and the optional recovery action, the Retrier invokes the operation
at most N times (and at least once), invokes the recovery action exactly
one time fewer than the operation — only between a failed attempt and the
next attempt, never after the final one —, returns success as soon as any
attempt succeeds, and otherwise returns the failure signal of the last of
the N attempts, having invoked the recovery action exactly N - 1 times. -/
theorem claimC1 (results : Nat → Nat) (N : Nat) (hN : 1 ≤ N) :
    (1 ≤ attCount (tryExecNTimes results N).1.trace ∧
     attCount (tryExecNTimes results N).1.trace ≤ N ∧
     recCount (tryExecNTimes results N).1.trace =
       attCount (tryExecNTimes results N).1.trace - 1) ∧
    ((∀ i, i < N → results i ≠ 0) →
      tryExecNTimes results N =
        (⟨N, failTrace results 0 (N - 1) ++
            [REvent.att (N - 1) (results (N - 1))]⟩, results (N - 1))) ∧
    (∀ d, d < N → results d = 0 → (∀ k, k < d → results k ≠ 0) →
      tryExecNTimes results N =
        (⟨d + 1, failTrace results 0 d ++ [REvent.att d 0]⟩, 0)) := by
  obtain ⟨m, rfl⟩ : ∃ m, N = m + 1 := ⟨N - 1, by omega⟩
  refine ⟨?_, ?_, ?_⟩
  · obtain ⟨t, ht, ha1, ha2, hr⟩ := retryLoop_counts results m 0 []
    unfold tryExecNTimes
    rw [ht]
    simpa using ⟨ha1, ha2, hr⟩
  · intro hf
    unfold tryExecNTimes
    have h := retryLoop_all_fail results m 0 []
      (fun k hk => by simpa using hf k (by omega))
    simpa using h
  · intro d hd h0 hk
    unfold tryExecNTimes
    have h := retryLoop_first_success results m 0 [] d (by omega)
      (by simpa using h0) (fun k hk2 => by simpa using hk k hk2)
    simpa using h

/-- Witness for C1 at a concrete input: three attempts allowed, the first
fails with code 1 and the second succeeds; the run performs exactly two
attempts with one recovery in between and returns success. -/
theorem claimC1_wit :
    tryExecNTimes r01 3 = (⟨2, [REvent.att 0 1, REvent.recov, REvent.att 1 0]⟩, 0) := by
  have h := (claimC1 r01 3 (by omega)).2.2 1 (by omega) (by decide)
    (fun k hk => by interval_cases k; decide)
  exact h.trans (by decide)

/-- C9: a falsy `--retries` value (0 models absent or zero) yields the
default retry count 1, every configuration yields a retry count of at
least 1, and every retried operation is attempted at least once. -/
theorem claimC9 :
    numberOfRetries 0 = 1 ∧ (∀ r, 1 ≤ numberOfRetries r) ∧
    (∀ results r, 1 ≤ attCount (tryExecNTimes results (numberOfRetries r)).1.trace) := by
  refine ⟨rfl, ?_, ?_⟩
  · intro r
    unfold numberOfRetries
    split <;> omega
  · intro results r
    obtain ⟨m, hm⟩ : ∃ m, numberOfRetries r = m + 1 := by
      unfold numberOfRetries
      split
      · exact ⟨0, rfl⟩
      · exact ⟨r - 1, by omega⟩
    rw [hm]
    unfold tryExecNTimes
    obtain ⟨t, ht, h1, _, _⟩ := retryLoop_counts results m 0 []
    rw [ht]
    simpa using h1

/-- C4: the process exit status is always 0 or 1; it is 0 whenever every
command of the run exits 0, and it is 1 exactly when some checked stage
failed (the body threw the fatal signal). -/
theorem claimC4 (w : World) (cfg : Config) :
    ((runScript w cfg).2 = 0 ∨ (runScript w cfg).2 = 1) ∧
    ((∀ i, w.code i = 0) → (runScript w cfg).2 = 0) ∧
    ((runScript w cfg).2 = 1 ↔ (bodyOut w cfg).2 = some 1) := by
  obtain ⟨hA, hB, hC⟩ := runScript_code w cfg
  refine ⟨hA, ?_, hB⟩
  intro hz
  exact hC.mpr ((runProg_happy w hz (script cfg) (execCmd w mktempCmd initialSt).1).1)

/-- Witness for C4: the all-success no-target run exits 0. -/
theorem claimC4_wit : (runScript wZero cfgNone).2 = 0 :=
  (claimC4 wZero cfgNone).2.1 (fun _ => rfl)

/-- C7: if setup is not skipped and the global cli install fails, the run
execs nothing beyond the mktemp and the cli install, echoes the two
explanatory messages, performs no spawn and no termination call, and exits
with status 1. -/
theorem claimC7 (w : World) (cfg : Config)
    (hskip : cfg.skipCliInstall = false) (hfail : w.code 1 ≠ 0) :
    (runScript w cfg).2 = 1 ∧
    (runScript w cfg).1.events =
      [Event.execE mktempCmd (w.code 0), Event.execE cliInstallCmd (w.code 1),
       Event.echoE "Could not install react-native-cli globally.",
       Event.echoE "Run with --skip-cli-install to skip this step"] := by
  have hbody : bodyOut w cfg =
      ({ execIdx := 2, spawnIdx := 0, SERVER_PID := none, APPIUM_PID := none,
         events := [Event.execE mktempCmd (w.code 0), Event.execE cliInstallCmd (w.code 1),
           Event.echoE "Could not install react-native-cli globally.",
           Event.echoE "Run with --skip-cli-install to skip this step"] }, some 1) := by
    unfold bodyOut script
    rw [hskip]
    simp [runProg, runInstr, execCmd, initialSt, echoAll, hfail]
  constructor
  · rw [(runScript_code w cfg).2.1, hbody]
  · rw [runScript_fst, finalize_events, hbody]
    simp [finalizeEvents, truthy]

/-- Witness for C7: with the cli install (exec index 1) failing, the run
exits 1. -/
theorem claimC7_wit : (runScript (wAt 1 1) cfgSetup).2 = 1 :=
  (claimC7 (wAt 1 1) cfgSetup rfl (by decide)).1

/-- C2: finalization runs exactly once, at the end of every run: the full
trace is the body trace followed by the finalization events; the body
itself issues no termination call; the kill targets of the whole run are
exactly the recorded pid globals; the port-8081 sweep happens exactly when
the packager global is set; each set global holds the pid of a process
spawned during the body (killed by pid, the packager kill followed by the
port sweep), and an unset global corresponds to no spawn of that kind and
no termination call for it. -/
theorem claimC2 (w : World) (cfg : Config) (hpid : ∀ j, w.pid j ≠ 0) :
    (runScript w cfg).1.events =
      (bodyOut w cfg).1.events ++
        finalizeEvents (bodyOut w cfg).1.SERVER_PID (bodyOut w cfg).1.APPIUM_PID ∧
    killTargets (bodyOut w cfg).1.events = [] ∧
    killTargets (runScript w cfg).1.events =
      optList (bodyOut w cfg).1.SERVER_PID ++ optList (bodyOut w cfg).1.APPIUM_PID ∧
    (Event.killPortE 8081 ∈ (runScript w cfg).1.events ↔
      (bodyOut w cfg).1.SERVER_PID.isSome) ∧
    (∀ p, (bodyOut w cfg).1.SERVER_PID = some p →
      Event.spawnE PKind.packager p ∈ (bodyOut w cfg).1.events ∧
      finalizeEvents (bodyOut w cfg).1.SERVER_PID (bodyOut w cfg).1.APPIUM_PID =
        Event.echoE ("Killing packager " ++ toString p) :: Event.killE p ::
          Event.killPortE 8081 :: finalizeEvents none (bodyOut w cfg).1.APPIUM_PID) ∧
    ((bodyOut w cfg).1.SERVER_PID = none →
      ∀ p, Event.spawnE PKind.packager p ∉ (bodyOut w cfg).1.events) ∧
    (∀ q, (bodyOut w cfg).1.APPIUM_PID = some q →
      Event.spawnE PKind.appium q ∈ (bodyOut w cfg).1.events ∧
      Event.killE q ∈ (runScript w cfg).1.events) ∧
    ((bodyOut w cfg).1.APPIUM_PID = none →
      ∀ q, Event.spawnE PKind.appium q ∉ (bodyOut w cfg).1.events) := by
  obtain ⟨h1, h2, h3, h4, h5, h6⟩ := bodyInv_bodyOut w cfg hpid
  have hks : ∀ p, (bodyOut w cfg).1.SERVER_PID = some p → p ≠ 0 :=
    fun p hp => (h1 p hp).1
  have hka : ∀ q, (bodyOut w cfg).1.APPIUM_PID = some q → q ≠ 0 :=
    fun q hq => (h3 q hq).1
  have hev : (runScript w cfg).1.events =
      (bodyOut w cfg).1.events ++
        finalizeEvents (bodyOut w cfg).1.SERVER_PID (bodyOut w cfg).1.APPIUM_PID := by
    rw [runScript_fst, finalize_events]
  have hknil : killTargets (bodyOut w cfg).1.events = [] := by
    rw [killTargets, List.filterMap_eq_nil_iff]
    intro e he
    cases e with
    | killE p => exact absurd he (h5 p)
    | execE c k => rfl
    | spawnE k p => rfl
    | shellE c => rfl
    | echoE m => rfl
    | killPortE q => rfl
  refine ⟨hev, hknil, ?_, ?_, ?_, h2, ?_, h4⟩
  · rw [hev, killTargets_append, hknil, List.nil_append,
      killTargets_finalizeEvents _ _ hks hka]
  · rw [hev]
    constructor
    · intro hm
      rcases List.mem_append.mp hm with hm | hm
      · exact absurd hm (h6 8081)
      · exact (killPort_finalizeEvents _ _ hks).mp hm
    · intro hs2
      exact List.mem_append_right _ ((killPort_finalizeEvents _ _ hks).mpr hs2)
  · intro p hp
    refine ⟨(h1 p hp).2, ?_⟩
    rw [hp, finalizeEvents_some p (hks p hp)]
  · intro q hq
    exact ⟨(h3 q hq).2, by
      rw [hev, hq]
      exact List.mem_append_right _ (killE_finalizeEvents_ap _ q (hka q hq))⟩

/-- Witness for C2: in the all-success android run the packager spawn with
pid 2 is on the body trace and the kill targets of the whole run are
exactly the two recorded handles, packager first. -/
theorem claimC2_wit :
    Event.spawnE PKind.packager 2 ∈ (bodyOut wZero cfgAndroid).1.events ∧
    killTargets (runScript wZero cfgAndroid).1.events = [2, 1] := by
  have h := claimC2 wZero cfgAndroid (fun j => Nat.succ_ne_zero j)
  refine ⟨(h.2.2.2.2.1 2 (by decide)).1, ?_⟩
  have hk := h.2.2.1
  rw [show (bodyOut wZero cfgAndroid).1.SERVER_PID = some 2 from by decide,
      show (bodyOut wZero cfgAndroid).1.APPIUM_PID = some 1 from by decide] at hk
  simpa [optList] using hk

/-- C3 counterexample: in the run selecting both the android and the ios
targets (all commands succeeding, pids 1, 2, 3), the android-branch
packager handle (pid 2) is spawned but is never the target of a kill
before the run ends — the claim that every created handle is terminated
fails. -/
theorem claimC3_cex :
    Event.spawnE PKind.packager 2 ∈ (runScript wZero cfgAndroidIos).1.events ∧
    Event.spawnE PKind.packager 3 ∈ (runScript wZero cfgAndroidIos).1.events ∧
    Event.killE 2 ∉ (runScript wZero cfgAndroidIos).1.events := by
  decide

/-- C3 amended: every handle still recorded in a pid global at the end of
the body is a handle spawned during the run and is killed by pid before
the run ends, even on early failure; but when both the android and an
apple target are selected, the android-branch packager handle is
overwritten by the apple-branch one and is never killed by pid — only the
port-8081 sweep still runs. -/
theorem claimC3_amended (w : World) (cfg : Config) (hpid : ∀ j, w.pid j ≠ 0) :
    (∀ p, (bodyOut w cfg).1.SERVER_PID = some p →
      Event.spawnE PKind.packager p ∈ (bodyOut w cfg).1.events ∧
      Event.killE p ∈ (runScript w cfg).1.events) ∧
    (∀ q, (bodyOut w cfg).1.APPIUM_PID = some q →
      Event.spawnE PKind.appium q ∈ (bodyOut w cfg).1.events ∧
      Event.killE q ∈ (runScript w cfg).1.events) ∧
    (Event.spawnE PKind.packager 2 ∈ (runScript wZero cfgAndroidIos).1.events ∧
     Event.killE 2 ∉ (runScript wZero cfgAndroidIos).1.events ∧
     Event.killPortE 8081 ∈ (runScript wZero cfgAndroidIos).1.events) := by
  obtain ⟨h1, h2, h3, h4, h5, h6⟩ := bodyInv_bodyOut w cfg hpid
  have hev : (runScript w cfg).1.events =
      (bodyOut w cfg).1.events ++
        finalizeEvents (bodyOut w cfg).1.SERVER_PID (bodyOut w cfg).1.APPIUM_PID := by
    rw [runScript_fst, finalize_events]
  refine ⟨?_, ?_, by decide⟩
  · intro p hp
    refine ⟨(h1 p hp).2, ?_⟩
    rw [hev, hp]
    refine List.mem_append_right _ ?_
    rw [finalizeEvents_some p (h1 p hp).1]
    simp
  · intro q hq
    exact ⟨(h3 q hq).2, by
      rw [hev, hq]
      exact List.mem_append_right _ (killE_finalizeEvents_ap _ q (h3 q hq).1)⟩

/-- Witness for the amended C3: in the all-success android-only run both
recorded handles (packager pid 2, appium pid 1) are killed by pid. -/
theorem claimC3_amended_wit :
    Event.killE 2 ∈ (runScript wZero cfgAndroid).1.events ∧
    Event.killE 1 ∈ (runScript wZero cfgAndroid).1.events := by
  have h := claimC3_amended wZero cfgAndroid (fun j => Nat.succ_ne_zero j)
  exact ⟨(h.1 2 (by decide)).2, (h.2.1 1 (by decide)).2⟩

/-- C5 counterexample: with the artifact-install command (`npm install
PACKAGE`, exec index 3 of the no-target run) failing with code 7 and every
other command succeeding, the run still exits 0 and the artifact install
was executed exactly once — it is neither retried nor fatal. -/
theorem claimC5_cex :
    (runScript (wAt 3 7) cfgNone).2 = 0 ∧
    Event.execE installPackageCmd 7 ∈ (runScript (wAt 3 7) cfgNone).1.events ∧
    (execsOf (runScript (wAt 3 7) cfgNone).1.events).count installPackageCmd = 1 := by
  decide

/-- C5 amended: only the dependency install (`npm install`) runs through
the Retrier and is fatal on failure — a run whose dependency install fails
with retries exhausted exits 1, and with retries = 2 a failed first
attempt is retried (two `npm install` execs) after a sleep recovery; the
artifact install (`npm install PACKAGE`) runs exactly once, unretried, its
exit code unchecked, and its failure is not fatal. -/
theorem claimC5_amended :
    ((runScript (wAt 3 7) cfgNone).2 = 0 ∧
     (execsOf (runScript (wAt 3 7) cfgNone).1.events).count installPackageCmd = 1) ∧
    (runScript (wAt 4 5) cfgNone).2 = 1 ∧
    ((runScript (wAt 4 5) cfgNone2).2 = 0 ∧
     (execsOf (runScript (wAt 4 5) cfgNone2).1.events).count npmInstallCmd = 2 ∧
     Event.execE npmInstallCmd 5 ∈ (runScript (wAt 4 5) cfgNone2).1.events ∧
     Event.execE sleep10Cmd 0 ∈ (runScript (wAt 4 5) cfgNone2).1.events) := by
  decide

/-- C6 counterexample: with `gradlew :app:copyDownloadableDepsToLibs`
(exec index 7 of the android run) failing with code 9 and every other
command succeeding, the run still exits 0 — its failure is not fatal. -/
theorem claimC6_cex :
    Event.execE copyDepsCmd 9 ∈ (runScript (wAt 7 9) cfgAndroid).1.events ∧
    (runScript (wAt 7 9) cfgAndroid).2 = 0 := by
  decide

/-- C6 amended: within the android branch the checked commands are fatal
on failure — the e2e framework install (after retries), the keystore
generation, the app build and the e2e test (after retries) each make the
run exit 1 — while the exit codes of `gradlew
:app:copyDownloadableDepsToLibs` and of the keystore removal are ignored,
so their failures let the run exit 0. -/
theorem claimC6_amended :
    ((runScript (wAt 7 9) cfgAndroid).2 = 0 ∧
     Event.execE copyDepsCmd 9 ∈ (runScript (wAt 7 9) cfgAndroid).1.events) ∧
    ((runScript (wAt 8 6) cfgAndroid).2 = 0 ∧
     Event.execE rmKeystoreCmd 6 ∈ (runScript (wAt 8 6) cfgAndroid).1.events) ∧
    (runScript (wAt 6 8) cfgAndroid).2 = 1 ∧
    (runScript (wAt 9 3) cfgAndroid).2 = 1 ∧
    (runScript (wAt 10 2) cfgAndroid).2 = 1 ∧
    (runScript (wAt 12 4) cfgAndroid).2 = 1 := by
  decide

/-- C8: in the spec scenario (android target, retries = 2, scaffolding
fails on the first attempt with code 1 and succeeds on the second, all
other commands succeeding), the scaffold command is executed exactly
twice, the recovery action removes the partial project directory exactly
once, the pipeline proceeds to the artifact install, and the run exits 0. -/
theorem claimC8 :
    (execsOf (runScript (wAt 4 1) cfgScaffold).1.events).count initCmd = 2 ∧
    (runScript (wAt 4 1) cfgScaffold).1.events.count
      (Event.shellE "rm -rf EndToEndTest") = 1 ∧
    Event.execE initCmd 1 ∈ (runScript (wAt 4 1) cfgScaffold).1.events ∧
    Event.execE initCmd 0 ∈ (runScript (wAt 4 1) cfgScaffold).1.events ∧
    Event.execE installPackageCmd 0 ∈ (runScript (wAt 4 1) cfgScaffold).1.events ∧
    (runScript (wAt 4 1) cfgScaffold).2 = 0 := by
  decide

/-- C10: when both apple flags are set, no iOS-parameterized xcodebuild
invocation ever appears on the trace of any run, and in a run where every
command succeeds the tvOS-parameterized xcodebuild invocation is executed
exactly once — the tvOS flag takes precedence and the branch runs once. -/
theorem claimC10 (w : World) (cfg : Config) (hi : cfg.ios = true) (ht : cfg.tvos = true) :
    (∀ k, Event.execE (xcodebuildCmd false) k ∉ (runScript w cfg).1.events) ∧
    ((∀ i, w.code i = 0) →
      (execsOf (runScript w cfg).1.events).count (xcodebuildCmd true) = 1) := by
  constructor
  · intro k hm
    rw [runScript_fst, finalize_events] at hm
    rcases List.mem_append.mp hm with hm | hm
    · obtain ⟨t, ht2, hf⟩ := runProg_execs w (script cfg) (execCmd w mktempCmd initialSt).1
      have hb : (bodyOut w cfg).1.events =
          (execCmd w mktempCmd initialSt).1.events ++ t := ht2
      rw [hb] at hm
      rcases List.mem_append.mp hm with hm | hm
      · simp [execCmd, initialSt] at hm
        exact absurd hm.1 (by decide)
      · exact absurd (hf _ _ hm) (xcb_false_notin cfg ht)
    · exact execE_not_finalizeEvents _ _ _ _ hm
  · intro hz
    have hex : execsOf (runScript w cfg).1.events =
        execsOf (bodyOut w cfg).1.events := by
      rw [runScript_fst, finalize_events, execsOf_append, execsOf_finalizeEvents,
        List.append_nil]
    rw [hex]
    have hb : execsOf (bodyOut w cfg).1.events =
        execsOf (execCmd w mktempCmd initialSt).1.events ++ happyCmds (script cfg) :=
      (runProg_happy w hz (script cfg) (execCmd w mktempCmd initialSt).1).2
    rw [hb]
    have h1 : execsOf (execCmd w mktempCmd initialSt).1.events = [mktempCmd] := by
      simp [execCmd, initialSt, execsOf]
    rw [h1, List.count_append, xcb_true_count cfg hi ht]
    decide

/-- Witness for C10: the all-success run with both apple flags executes
the tvOS xcodebuild exactly once. -/
theorem claimC10_wit :
    (execsOf (runScript wZero cfgIosTvos).1.events).count (xcodebuildCmd true) = 1 :=
  (claimC10 wZero cfgIosTvos rfl rfl).2 (fun _ => rfl)
